import Mathlib

/-!
Verification of the push path of the mergin client (`mergin/client_push.py`,
`mergin/common.py`), as a shallow embedding: pure data is translated directly,
network and filesystem effects become explicit inputs (server responses,
file bytes) and an explicit trace of issued requests/events, and raised
exceptions become `Except` errors (every failure of the HTTP layer is a
`ClientError` carrying a message, modelled as `String`).
-/

deriving instance DecidableEq for Except

namespace Mergin

/-- `UPLOAD_CHUNK_SIZE = 10 * 1024 * 1024` from `mergin/common.py`. -/
def UPLOAD_CHUNK_SIZE : Nat := 10 * 1024 * 1024

/-- The `file["diff"]` sub-dictionary of a change entry: path and size of the
diff file to upload instead of the full file. -/
structure DiffInfo where
  path : String
  size : Int
  deriving DecidableEq, Repr

/-- One file entry of a change set, as consumed by `push_project_async`:
relative `path`, byte `size`, optional `diff` (versioned file updated via
a diff), optional `upload_file` (temporary full copy of a versioned file),
the server-assigned `chunks` identifiers, and the purely local
`origin_checksum` bookkeeping field dropped before the transaction is opened. -/
structure FileEntry where
  path : String
  size : Int
  diff : Option DiffInfo
  upload_file : Option String
  chunks : List String
  origin_checksum : Option String
  deriving DecidableEq, Repr

/-- Modelled from the spec: the Change Set is a mapping with four ordered
collections — `added`, `updated`, `removed`, `renamed` (§3 of the design;
the producing function `get_push_changes` lives outside this module).
`push_project_async` iterates `changes.values()`, i.e. all four lists. -/
structure Changes where
  added : List FileEntry
  updated : List FileEntry
  removed : List FileEntry
  renamed : List FileEntry
  deriving DecidableEq, Repr

/-- `sum(len(v) for v in changes.values())` from `push_project_async`. -/
def Changes.total_len (c : Changes) : Nat :=
  c.added.length + c.updated.length + c.removed.length + c.renamed.length

/-- `UploadQueueItem`: a single chunk of data that needs to be uploaded. -/
structure UploadQueueItem where
  file_path : String
  size : Int
  chunk_id : String
  chunk_index : Nat
  transaction_id : String
  deriving DecidableEq, Repr

/-- The parsed server acknowledgement of one chunk post:
`{'size': ..., 'checksum': ...}`. -/
structure ChunkResp where
  size : Int
  checksum : String
  deriving DecidableEq, Repr

/-- The parsed server response to opening/finishing a push transaction:
`transaction` id, new `version` and `files` metadata. -/
structure ServerResp where
  transaction : String
  version : String
  files : List String
  deriving DecidableEq, Repr

/-- State of a `concurrent.futures` future holding one upload task:
`pending` (submitted, not started: `done()` and `running()` both false),
`running` (currently executing), or `completed` with an optional exception. -/
inductive FutureState where
  | pending
  | running
  | completed (exc : Option String)
  deriving DecidableEq, Repr

/-- `future.exception()`, for a future that no longer blocks: only a
completed future carries an exception. (On a non-completed future the real
call would block; `push_project_finalize` only calls it after
`executor.shutdown(wait=True)`, when every future is completed.) -/
def FutureState.exception : FutureState → Option String
  | .completed e => e
  | _ => none

/-- `future.running()`: true only while the task is actually executing —
a queued-but-not-started future is not `running`. -/
def FutureState.runningB : FutureState → Bool
  | .running => true
  | _ => false

/-- A task state is terminal when the future has completed (successfully or
with an error); pending and running tasks are still in flight.
(This follows the spec's words and is used to compare the spec's notion of
"in flight" with what the code's polling function actually reports.) -/
def FutureState.isTerminal : FutureState → Bool
  | .completed _ => true
  | _ => false

/-- The requests posted to the remote service. -/
inductive Request where
  | project_push (project : String) (version : String) (changes : Changes)
  | chunk (transaction_id chunk_id : String)
  | finish (transaction_id : String)
  | cancel (transaction_id : String)
  deriving DecidableEq, Repr

/-- Observable side effects of the push path. -/
inductive Event where
  | post (r : Request)
  | tmp_dir_created
  | copy_versioned (path : String)
  | tmp_cleanup
  deriving DecidableEq, Repr

/-- `UploadJob`: keeps all the important data about a pending upload job.
`with_upload` stands for `executor is not None`; the `mp`/`mc`/`tmp_dir`
handles are environment, not data. -/
structure UploadJob where
  project_path : String
  changes : Changes
  transaction_id : Option String
  total_size : Int
  transferred_size : Int
  upload_queue_items : List UploadQueueItem
  is_cancelled : Bool
  with_upload : Bool
  futures : List FutureState
  server_resp : Option ServerResp
  deriving DecidableEq, Repr

/-- `UploadJob.__init__`: all counters start at zero, no items, not
cancelled, no executor, no futures, no server response. -/
def UploadJob.init (project_path : String) (changes : Changes)
    (transaction_id : Option String) : UploadJob :=
  { project_path := project_path
    changes := changes
    transaction_id := transaction_id
    total_size := 0
    transferred_size := 0
    upload_queue_items := []
    is_cancelled := false
    with_upload := false
    futures := []
    server_resp := none }

/-- `"%s" % transaction_id` — Python renders `None` as `"None"`. -/
def option_str : Option String → String
  | some s => s
  | none => "None"

/-- `project_path.split("/")[0]`: the prefix of the string before its first
slash (the whole string when no slash occurs), i.e. the project's owner
name in an `owner/project` path. -/
def split_head (s : String) : String :=
  ⟨s.toList.takeWhile fun c => c ≠ '/'⟩

/-! ## Chunk planner (`push_project_async`, the loop over `file["chunks"]`) -/

/-- Which size the planner uses for a file: the diff's size when uploading a
diff, the file's own size otherwise (both the temporary-full-copy and the
non-versioned branches read `file["size"]`). -/
def file_upload_size (f : FileEntry) : Int :=
  match f.diff with
  | some d => d.size
  | none => f.size

/-- Which location the planner uses for a file: the diff file (resolved via
`mp.fpath_meta`), or the temporary full copy, or the ordinary file (resolved
via `mp.fpath`); the two resolver functions are passed in as the relevant
behaviour of the `MerginProject` handle. -/
def file_upload_location (fpath fpath_meta : String → String) (f : FileEntry) : String :=
  match f.diff with
  | some d => fpath_meta d.path
  | none =>
    match f.upload_file with
    | some up => up
    | none => fpath f.path

/-- `for chunk_index, chunk_id in enumerate(file["chunks"]): size =
min(UPLOAD_CHUNK_SIZE, file_size - chunk_index * UPLOAD_CHUNK_SIZE)` —
the enumeration is made explicit by threading the index. -/
def plan_chunks_from (location : String) (file_size : Int) (tid : String) :
    Nat → List String → List UploadQueueItem
  | _, [] => []
  | chunk_index, chunk_id :: rest =>
    { file_path := location
      size := min (UPLOAD_CHUNK_SIZE : Int) (file_size - (chunk_index : Int) * (UPLOAD_CHUNK_SIZE : Int))
      chunk_id := chunk_id
      chunk_index := chunk_index
      transaction_id := tid } :: plan_chunks_from location file_size tid (chunk_index + 1) rest

/-- The per-file planning loop of `push_project_async` (lines 172–196):
items of the first file come first, and `total_size` accumulates the
per-file upload sizes. -/
def plan_upload (tid : String) (fpath fpath_meta : String → String) :
    List FileEntry → List UploadQueueItem × Int
  | [] => ([], 0)
  | f :: rest =>
    let tail := plan_upload tid fpath fpath_meta rest
    (plan_chunks_from (file_upload_location fpath fpath_meta f) (file_upload_size f) tid 0 f.chunks
        ++ tail.1,
     file_upload_size f + tail.2)

/-- The claims' hypothesis on a file entry: a non-negative upload size and
exactly `ceil(size / UPLOAD_CHUNK_SIZE)` chunk identifiers. -/
def chunks_match_size (f : FileEntry) : Prop :=
  0 ≤ file_upload_size f ∧
  (f.chunks.length : Int) =
    (file_upload_size f + (UPLOAD_CHUNK_SIZE : Int) - 1) / (UPLOAD_CHUNK_SIZE : Int)

instance (f : FileEntry) : Decidable (chunks_match_size f) := by
  unfold chunks_match_size; infer_instance

/-! ## `UploadQueueItem.upload_blocking` -/

/-- The bytes the worker reads for its chunk:
`file_handle.seek(chunk_index * UPLOAD_CHUNK_SIZE); file_handle.read(UPLOAD_CHUNK_SIZE)`. -/
def upload_chunk_data (item : UploadQueueItem) (file_content : List Nat) : List Nat :=
  (file_content.drop (item.chunk_index * UPLOAD_CHUNK_SIZE)).take UPLOAD_CHUNK_SIZE

/-- `UploadQueueItem.upload_blocking`: hash the bytes read, post them, compare
the acknowledged size and checksum against the local values; on disagreement
post one transaction cancel (its own `ClientError` is swallowed by
`except ClientError: pass` — every modelled post failure is a `ClientError`)
and raise the chunk-mismatch `ClientError`. The hash function and the file
bytes are inputs; `chunk_resp` is the (parsed) response of the chunk post,
`cancel_resp` that of the cancel post. -/
def upload_blocking (item : UploadQueueItem) (sha1 : List Nat → String)
    (file_content : List Nat) (chunk_resp : Except String ChunkResp)
    (cancel_resp : Except String String) : Except String Unit × List Event :=
  let data := upload_chunk_data item file_content
  let checksum := sha1 data
  match chunk_resp with
  | .error e => (.error e, [.post (.chunk item.transaction_id item.chunk_id)])
  | .ok resp_dict =>
    if resp_dict.size = (data.length : Int) ∧ resp_dict.checksum = checksum then
      (.ok (), [.post (.chunk item.transaction_id item.chunk_id)])
    else
      -- `mc.post("/v1/project/push/cancel/...")` inside `try/except ClientError: pass`:
      -- the cancel outcome is observed (logged at most) and never raised.
      let _cancel_outcome := cancel_resp
      (.error ("Mismatch between uploaded file chunk " ++ item.chunk_id ++ " and local one"),
       [.post (.chunk item.transaction_id item.chunk_id), .post (.cancel item.transaction_id)])

/-! ## `push_project_is_running` -/

/-- The body of `push_project_is_running`: walk the futures in submission
order; a completed future with an exception re-raises it, a future in the
running state returns `True`, otherwise keep scanning; `False` when the loop
falls through. -/
def is_running_loop : List FutureState → Except String Bool
  | [] => .ok false
  | f :: rest =>
    match f with
    | .completed (some e) => .error e
    | .running => .ok true
    | _ => is_running_loop rest

/-- `push_project_is_running(job)`: reads `job.futures` and assigns no job
attribute, so the job comes back unchanged alongside the poll result. -/
def push_project_is_running (job : UploadJob) : UploadJob × Except String Bool :=
  (job, is_running_loop job.futures)

/-- A sequence of `n` polls of the same job: the source mutates no job state
in `push_project_is_running`, and a completed future stays completed, so
every call observes the same futures list. -/
def repeated_is_running (job : UploadJob) (n : Nat) : List (Except String Bool) :=
  (List.range n).map fun _ => (push_project_is_running job).2

/-- How many calls of a poll sequence raised. -/
def count_raises (rs : List (Except String Bool)) : Nat :=
  (rs.filter fun r => match r with | .error _ => true | .ok _ => false).length

/-! ## `push_project_finalize` -/

/-- `future.exception()` scan of `push_project_finalize`: the first future
carrying an exception (after `shutdown(wait=True)` every future is
completed). -/
def first_future_exception : List FutureState → Option String
  | [] => none
  | f :: rest =>
    match f.exception with
    | some e => some e
    | none => first_future_exception rest

/-- Outcomes of the external calls `push_project_finalize` makes:
the finish post, the compensating cancel post, and
`mp.apply_push_changes`. -/
structure FinalizeEnv where
  finish_resp : Except String ServerResp
  cancel_resp : Except String String
  apply_result : Except String Unit
  deriving DecidableEq, Repr

/-- `mp.metadata` as written on success. -/
structure Metadata where
  name : String
  version : String
  files : List String
  deriving DecidableEq, Repr

/-- What a finalize run produces: its result (`Unit` or the raised error),
the requests/cleanup events in order, the metadata written (if reached) and
the job's server response field afterwards. -/
structure FinalizeOut where
  result : Except String Unit
  events : List Event
  metadata : Option Metadata
  server_resp : Option ServerResp
  deriving DecidableEq, Repr

/-- The tail of `push_project_finalize` after the finish block: write
`mp.metadata` from `job.server_resp`, apply the push changes (any exception
becomes `ClientError("Failed to apply push changes: ...")`), and only then
`job.tmp_dir.cleanup()`. A `none` server response would be a `TypeError`
under subscripting in the source. -/
def finalize_tail (job : UploadJob) (env : FinalizeEnv)
    (server_resp : Option ServerResp) (evs : List Event) : FinalizeOut :=
  match server_resp with
  | none =>
    { result := .error "TypeError: NoneType object is not subscriptable"
      events := evs, metadata := none, server_resp := none }
  | some resp =>
    let md : Metadata := { name := job.project_path, version := resp.version, files := resp.files }
    match env.apply_result with
    | .error e =>
      { result := .error ("Failed to apply push changes: " ++ e)
        events := evs, metadata := some md, server_resp := some resp }
    | .ok _ =>
      { result := .ok ()
        events := evs ++ [.tmp_cleanup], metadata := some md, server_resp := some resp }

/-- `push_project_finalize`: after shutting the pool down, re-raise the first
worker exception; then verify `transferred_size == total_size`; then (if
there was an upload) post the finish request — on its failure post a
best-effort cancel whose own `ClientError` is only logged, and re-raise the
finish error; then update metadata, apply changes, and clean the temporary
directory. -/
def push_project_finalize (job : UploadJob) (env : FinalizeEnv) : FinalizeOut :=
  let with_upload_of_files := job.with_upload
  match (if with_upload_of_files then first_future_exception job.futures else none) with
  | some e => { result := .error e, events := [], metadata := none, server_resp := job.server_resp }
  | none =>
    if job.transferred_size ≠ job.total_size then
      { result := .error ("Upload error: Transferred size (" ++ toString job.transferred_size
          ++ ") and expected total size (" ++ toString job.total_size ++ ") do not match!")
        events := [], metadata := none, server_resp := job.server_resp }
    else
      if with_upload_of_files then
        let tid := option_str job.transaction_id
        match env.finish_resp with
        | .error err =>
          -- best-effort cancel; its response (or ClientError) is only logged
          let _cancel_log : String :=
            match env.cancel_resp with
            | .ok msg => "cancel response: " ++ msg
            | .error err2 => "cancel response: " ++ err2
          { result := .error err
            events := [.post (.finish tid), .post (.cancel tid)]
            metadata := none, server_resp := job.server_resp }
        | .ok resp => finalize_tail job env (some resp) [.post (.finish tid)]
      else
        finalize_tail job env job.server_resp []

/-! ## `push_project_cancel` -/

/-- What a cancel run produces: the job with its cancellation flag set, the
result, the requests issued, and the raw response message stored into
`job.server_resp` on success. -/
structure CancelOut where
  job : UploadJob
  result : Except String Unit
  events : List Event
  server_resp_msg : Option String
  deriving DecidableEq, Repr

/-- `push_project_cancel`: set `job.is_cancelled`, drain the pool, post the
transaction cancel; a `ClientError` from that post is re-raised. No
temporary-directory cleanup happens on this path. -/
def push_project_cancel (job : UploadJob) (cancel_resp : Except String String) : CancelOut :=
  let job' := { job with is_cancelled := true }
  let tid := option_str job.transaction_id
  match cancel_resp with
  | .ok msg =>
    { job := job', result := .ok (), events := [.post (.cancel tid)], server_resp_msg := some msg }
  | .error err =>
    { job := job', result := .error err, events := [.post (.cancel tid)], server_resp_msg := none }

/-! ## `_do_upload` (sequential accounting) -/

/-- The outcome of one worker's `upload_blocking` call. -/
inductive UploadOutcome where
  | success
  | failure (e : String)
  deriving DecidableEq, Repr

/-- One `_do_upload(item, job)` step on the transferred-size counter:
a worker that observes `job.is_cancelled` returns at once; a failing
`upload_blocking` raises before the `job.transferred_size += item.size`
line; only a successful upload adds exactly the item's size. -/
def do_upload_step (cancelled : Bool) (item_size : Int) (outcome : UploadOutcome)
    (transferred : Int) : Int :=
  if cancelled then transferred
  else
    match outcome with
    | .success => transferred + item_size
    | .failure _ => transferred

/-- A sequential execution of the upload tasks: each task is given the
cancellation flag it observes and its upload outcome, and the counter is
threaded through `do_upload_step`. -/
def run_uploads : List (Bool × Int × UploadOutcome) → Int → Int
  | [], t => t
  | (c, s, o) :: rest, t => run_uploads rest (do_upload_step c s o t)

/-! ## The non-atomic counter increment (`job.transferred_size += item.size`) -/

/-- Progress of one worker through the read-modify-write that CPython
compiles `job.transferred_size += item.size` into: the attribute load and
the attribute store are separate interpreter steps, and a thread switch may
happen between them. -/
inductive IncPhase where
  | toRead
  | toWrite (saved : Int)
  | finished
  deriving DecidableEq, Repr

/-- One scheduler step: run thread `t` for one interpreter step of its
increment. A thread at `toRead` loads the counter; a thread at `toWrite`
stores its saved value plus its item size; a finished (or nonexistent)
thread does nothing. -/
def sched_step (sizes : List Int) (st : Int × List IncPhase) (t : Nat) : Int × List IncPhase :=
  match st.2.getD t .finished with
  | .toRead => (st.1, st.2.set t (.toWrite st.1))
  | .toWrite saved => (saved + sizes.getD t 0, st.2.set t .finished)
  | .finished => st

/-- Run a schedule (a list of thread ids) over the workers' concurrent
`transferred_size` increments, starting from a zero counter with every
thread about to read. -/
def run_schedule (sizes : List Int) (sched : List Nat) : Int × List IncPhase :=
  sched.foldl (sched_step sizes) (0, sizes.map fun _ => IncPhase.toRead)

/-! ## `push_project_async` -/

/-- `mc.project_info(...)` as consumed by the push path: the server version
(`None`/empty is falsy and replaced by `"v0"`) and
`access.writersnames`. -/
structure ProjectInfo where
  version : Option String
  writersnames : List String
  deriving DecidableEq, Repr

/-- Everything `push_project_async` observes from its collaborators:
the local project store's state (`has_unfinished_pull`, `mp.metadata`,
the computed change set), the client (`username`, project info, storage
check), the transaction-open response, and the finalize environment used
when there is nothing to upload and finalize runs inline. -/
structure AsyncEnv where
  has_unfinished_pull : Bool
  metadata_name : String
  metadata_version : String
  project_info : Except String ProjectInfo
  username : String
  enough_free_space : Bool
  freespace : Int
  push_resp : Except String ServerResp
  changes : Changes
  fin : FinalizeEnv

/-- Modelled from the spec: `snapshot_full_copy` (in the source,
`mp.copy_versioned_file_for_upload`, outside this module) snapshots a
versioned file into the temporary directory and records the copy's location
on the entry, which the planner later reads back as `upload_file`. -/
def copy_versioned_file_for_upload (tmp_copy_path : String → String) (f : FileEntry) : FileEntry :=
  { f with upload_file := some (tmp_copy_path f.path) }

/-- The loop over `changes["updated"]`: versioned files without a diff are
snapshot into the temporary directory. -/
def snapshot_updated (is_versioned_file : String → Bool) (tmp_copy_path : String → String) :
    List FileEntry → List FileEntry × List Event
  | [] => ([], [])
  | f :: rest =>
    let tail := snapshot_updated is_versioned_file tmp_copy_path rest
    if is_versioned_file f.path && f.diff.isNone then
      (copy_versioned_file_for_upload tmp_copy_path f :: tail.1, .copy_versioned f.path :: tail.2)
    else (f :: tail.1, tail.2)

/-- The loop over `changes["added"]`: every versioned file is snapshot. -/
def snapshot_added (is_versioned_file : String → Bool) (tmp_copy_path : String → String) :
    List FileEntry → List FileEntry × List Event
  | [] => ([], [])
  | f :: rest =>
    let tail := snapshot_added is_versioned_file tmp_copy_path rest
    if is_versioned_file f.path then
      (copy_versioned_file_for_upload tmp_copy_path f :: tail.1, .copy_versioned f.path :: tail.2)
    else (f :: tail.1, tail.2)

/-- `item.pop('origin_checksum', None)` over `changes['updated']`. -/
def drop_origin_checksums (c : Changes) : Changes :=
  { c with updated := c.updated.map fun f => { f with origin_checksum := none } }

/-- `push_project_async(mc, directory)`. Returns the raised error or the
pending job (`none` — Python `None` — when there is nothing left to do),
together with the trace of events. The `MerginProject` path helpers
(`mp.is_versioned_file`, `mp.fpath`, `mp.fpath_meta`) and the temporary-copy
path chosen inside the temporary directory are passed as functions. -/
def push_project_async (env : AsyncEnv) (is_versioned_file : String → Bool)
    (fpath fpath_meta tmp_copy_path : String → String) :
    Except String (Option UploadJob) × List Event :=
  if env.has_unfinished_pull then
    (.error "Project is in unfinished pull state. Please resolve unfinished pull and try again.", [])
  else
    let project_path := env.metadata_name
    let local_version := env.metadata_version
    match env.project_info with
    | .error err => (.error err, [])
    | .ok server_info =>
      let server_version :=
        match server_info.version with
        | some v => if v = "" then "v0" else v
        | none => "v0"
      let username := env.username
      if username ∉ server_info.writersnames then
        (.error ("You do not seem to have write access to the project (username '"
            ++ username ++ "')"), [])
      else if local_version ≠ server_version then
        (.error ("There is a new version of the project on the server. Please update your local copy."
            ++ "\n\nLocal version: " ++ local_version ++ "\nServer version: " ++ server_version), [])
      else
        let changes := env.changes
        -- tmp_dir = tempfile.TemporaryDirectory(...)
        let ev0 : List Event := [.tmp_dir_created]
        let upd := snapshot_updated is_versioned_file tmp_copy_path changes.updated
        let add := snapshot_added is_versioned_file tmp_copy_path changes.added
        let changes := { changes with updated := upd.1, added := add.1 }
        let ev1 := ev0 ++ upd.2 ++ add.2
        -- storage limit check, only for projects owned by the current user
        if username = split_head project_path ∧ ¬ env.enough_free_space then
          (.error ("Storage limit has been reached. Only "
              ++ toString (env.freespace / (1024 * 1024)) ++ "MB left"), ev1)
        else if changes.total_len = 0 then
          (.ok none, ev1)
        else
          let data_changes := drop_origin_checksums changes
          let ev2 := ev1 ++ [.post (.project_push project_path local_version data_changes)]
          match env.push_resp with
          | .error err => (.error err, ev2)
          | .ok server_resp =>
            let upload_files := data_changes.added ++ data_changes.updated
            let transaction_id : Option String :=
              if upload_files.isEmpty then none else some server_resp.transaction
            let job := UploadJob.init project_path data_changes transaction_id
            if upload_files.isEmpty then
              -- not uploading any files: finalize runs right away
              let job := { job with server_resp := some server_resp }
              let fout := push_project_finalize job env.fin
              match fout.result with
              | .error e => (.error e, ev2 ++ fout.events)
              | .ok _ => (.ok none, ev2 ++ fout.events)
            else
              let plan := plan_upload server_resp.transaction fpath fpath_meta upload_files
              let job :=
                { job with
                  total_size := plan.2
                  upload_queue_items := plan.1
                  with_upload := true
                  futures := plan.1.map fun _ => FutureState.pending }
              (.ok (some job), ev2)

/-! ## Planner lemmas -/

theorem upload_chunk_size_val : (UPLOAD_CHUNK_SIZE : Int) = 10485760 := by
  norm_num [UPLOAD_CHUNK_SIZE]

/-- Starting the planning loop one index later subtracts one chunk size from
the remaining bytes, as far as the produced sizes are concerned. -/
theorem plan_sizes_shift : ∀ (chunks : List String) (loc tid : String) (n : Int) (j : Nat),
    (plan_chunks_from loc n tid (j + 1) chunks).map UploadQueueItem.size
      = (plan_chunks_from loc (n - (UPLOAD_CHUNK_SIZE : Int)) tid j chunks).map UploadQueueItem.size
  | [], _, _, _, _ => rfl
  | _ :: rest, loc, tid, n, j => by
    simp only [plan_chunks_from, List.map_cons]
    rw [plan_sizes_shift rest loc tid n (j + 1)]
    congr 2
    all_goals push_cast
    all_goals ring

/-- Unfolding one step of the per-file planning from index zero. -/
theorem plan_sizes_cons (loc tid : String) (n : Int) (x : String) (rest : List String) :
    (plan_chunks_from loc n tid 0 (x :: rest)).map UploadQueueItem.size
      = min (UPLOAD_CHUNK_SIZE : Int) n
          :: (plan_chunks_from loc (n - (UPLOAD_CHUNK_SIZE : Int)) tid 0 rest).map UploadQueueItem.size := by
  simp only [plan_chunks_from, List.map_cons]
  rw [plan_sizes_shift rest loc tid n 0]
  norm_num

/-- Proof-layer view of the sizes the per-file planning produces: one entry
per chunk, each the minimum of a full chunk and the remaining bytes. -/
def chunk_size_list (n : Int) : Nat → List Int
  | 0 => []
  | k + 1 => min (UPLOAD_CHUNK_SIZE : Int) n :: chunk_size_list (n - (UPLOAD_CHUNK_SIZE : Int)) k

/-- The planner's sizes are exactly `chunk_size_list` of the file size at
the chunk count. -/
theorem plan_map_size_eq : ∀ (chunks : List String) (loc tid : String) (n : Int),
    (plan_chunks_from loc n tid 0 chunks).map UploadQueueItem.size
      = chunk_size_list n chunks.length
  | [], _, _, _ => rfl
  | x :: rest, loc, tid, n => by
    rw [plan_sizes_cons, List.length_cons]
    simp only [chunk_size_list]
    rw [plan_map_size_eq rest loc tid (n - (UPLOAD_CHUNK_SIZE : Int))]

/-- No planned size exceeds the chunk size. -/
theorem plan_sizes_le : ∀ (chunks : List String) (loc tid : String) (n : Int) (j : Nat),
    ∀ s ∈ (plan_chunks_from loc n tid j chunks).map UploadQueueItem.size,
      s ≤ (UPLOAD_CHUNK_SIZE : Int)
  | [], _, _, _, _ => by simp [plan_chunks_from]
  | _ :: rest, loc, tid, n, j => by
    simp only [plan_chunks_from, List.map_cons, List.mem_cons]
    rintro s (rfl | hs)
    · exact min_le_left _ _
    · exact plan_sizes_le rest loc tid n (j + 1) s hs

/-- The chunk sizes sum to the file size when the chunk count is exactly
the ceiling of the size over the chunk size. -/
theorem chunk_size_list_sum (k : Nat) : ∀ n : Int,
    0 ≤ n → n ≤ (k : Int) * (UPLOAD_CHUNK_SIZE : Int) →
    (k : Int) * (UPLOAD_CHUNK_SIZE : Int) < n + (UPLOAD_CHUNK_SIZE : Int) →
    (chunk_size_list n k).sum = n := by
  induction k with
  | zero =>
    intro n h0 h1 _h2
    simp only [Nat.cast_zero, zero_mul] at h1
    simp only [chunk_size_list, List.sum_nil]
    omega
  | succ k ih =>
    intro n h0 h1 h2
    rw [upload_chunk_size_val] at ih h1 h2
    push_cast at h1 h2
    simp only [chunk_size_list, List.sum_cons]
    rw [upload_chunk_size_val]
    rcases Nat.eq_zero_or_pos k with hk | hk
    · subst hk
      simp only [chunk_size_list, List.sum_nil, Nat.cast_zero] at h1 h2 ⊢
      omega
    · have hkk : (1 : Int) ≤ (k : Int) := by exact_mod_cast hk
      rw [ih (n - 10485760) (by omega) (by omega) (by omega)]
      omega

/-- Every chunk size is positive when the chunk count is exactly the
ceiling of the size over the chunk size. -/
theorem chunk_size_list_pos (k : Nat) : ∀ n : Int,
    0 ≤ n → n ≤ (k : Int) * (UPLOAD_CHUNK_SIZE : Int) →
    (k : Int) * (UPLOAD_CHUNK_SIZE : Int) < n + (UPLOAD_CHUNK_SIZE : Int) →
    ∀ s ∈ chunk_size_list n k, 0 < s := by
  induction k with
  | zero => intro n _ _ _ s hs; simp [chunk_size_list] at hs
  | succ k ih =>
    intro n h0 h1 h2 s hs
    rw [upload_chunk_size_val] at ih h1 h2
    push_cast at h1 h2
    have hknn : (0 : Int) ≤ (k : Int) := Int.natCast_nonneg _
    simp only [chunk_size_list, List.mem_cons] at hs
    rcases hs with rfl | hs
    · rw [upload_chunk_size_val]
      omega
    · rcases Nat.eq_zero_or_pos k with hk | hk
      · subst hk
        simp [chunk_size_list] at hs
      · have hkk : (1 : Int) ≤ (k : Int) := by exact_mod_cast hk
        exact ih (n - 10485760) (by omega) (by omega) (by omega) s hs

/-- The last chunk size of a file is `size mod UPLOAD_CHUNK_SIZE`, or a
full chunk when the size is evenly divisible. -/
theorem chunk_size_list_last (k : Nat) : ∀ n : Int,
    0 ≤ n → n ≤ (k : Int) * (UPLOAD_CHUNK_SIZE : Int) →
    (k : Int) * (UPLOAD_CHUNK_SIZE : Int) < n + (UPLOAD_CHUNK_SIZE : Int) →
    ∀ s, (chunk_size_list n k).getLast? = some s →
      s = if n % (UPLOAD_CHUNK_SIZE : Int) = 0 then (UPLOAD_CHUNK_SIZE : Int)
          else n % (UPLOAD_CHUNK_SIZE : Int) := by
  induction k with
  | zero => intro n _ _ _ s hs; simp [chunk_size_list] at hs
  | succ k ih =>
    intro n h0 h1 h2 s hs
    rw [upload_chunk_size_val] at h1 h2
    push_cast at h1 h2
    have hknn : (0 : Int) ≤ (k : Int) := Int.natCast_nonneg _
    rcases Nat.eq_zero_or_pos k with hk | hk
    · subst hk
      simp only [chunk_size_list, List.getLast?_singleton, Option.some.injEq] at hs
      subst hs
      simp only [Nat.cast_zero] at h1 h2 hknn
      rw [upload_chunk_size_val]
      split <;> omega
    · obtain ⟨k', rfl⟩ : ∃ k', k = k' + 1 := ⟨k - 1, by omega⟩
      have hcons : chunk_size_list n (k' + 1 + 1)
          = min (UPLOAD_CHUNK_SIZE : Int) n
            :: min (UPLOAD_CHUNK_SIZE : Int) (n - (UPLOAD_CHUNK_SIZE : Int))
            :: chunk_size_list (n - (UPLOAD_CHUNK_SIZE : Int) - (UPLOAD_CHUNK_SIZE : Int)) k' := rfl
      rw [hcons, List.getLast?_cons_cons] at hs
      have hback : (min (UPLOAD_CHUNK_SIZE : Int) (n - (UPLOAD_CHUNK_SIZE : Int))
          :: chunk_size_list (n - (UPLOAD_CHUNK_SIZE : Int) - (UPLOAD_CHUNK_SIZE : Int)) k')
          = chunk_size_list (n - (UPLOAD_CHUNK_SIZE : Int)) (k' + 1) := rfl
      rw [hback] at hs
      have hrec := ih (n - (UPLOAD_CHUNK_SIZE : Int))
        (by rw [upload_chunk_size_val]; push_cast at h1 h2 ⊢; omega)
        (by rw [upload_chunk_size_val]; push_cast at h1 h2 ⊢; omega)
        (by rw [upload_chunk_size_val]; push_cast at h1 h2 ⊢; omega)
        s hs
      rw [hrec, upload_chunk_size_val]
      have hmod : (n - (10485760 : Int)) % 10485760 = n % 10485760 := by omega
      rw [hmod]

/-- The chunk-count hypothesis, unpacked into the bounds the planning
lemmas consume. -/
theorem chunks_match_size_bounds (f : FileEntry) (h : chunks_match_size f) :
    0 ≤ file_upload_size f ∧
    file_upload_size f ≤ (f.chunks.length : Int) * (UPLOAD_CHUNK_SIZE : Int) ∧
    (f.chunks.length : Int) * (UPLOAD_CHUNK_SIZE : Int)
      < file_upload_size f + (UPLOAD_CHUNK_SIZE : Int) := by
  obtain ⟨h0, hlen⟩ := h
  rw [upload_chunk_size_val] at hlen ⊢
  refine ⟨h0, ?_, ?_⟩ <;> omega

/-- The sizes planned for one file sum to the file's upload size. -/
theorem plan_file_sum (loc tid : String) (f : FileEntry) (h : chunks_match_size f) :
    ((plan_chunks_from loc (file_upload_size f) tid 0 f.chunks).map UploadQueueItem.size).sum
      = file_upload_size f := by
  obtain ⟨h0, h1, h2⟩ := chunks_match_size_bounds f h
  rw [plan_map_size_eq]
  exact chunk_size_list_sum f.chunks.length (file_upload_size f) h0 h1 h2

/-- Planned sizes across all upload files sum to the accumulated
`total_size`. -/
theorem plan_upload_sum (tid : String) (fpath fpath_meta : String → String) :
    ∀ files : List FileEntry, (∀ f ∈ files, chunks_match_size f) →
      (((plan_upload tid fpath fpath_meta files).1.map UploadQueueItem.size).sum
        = (plan_upload tid fpath fpath_meta files).2)
  | [], _ => rfl
  | f :: rest, h => by
    have hrec := plan_upload_sum tid fpath fpath_meta rest fun g hg => h g (List.mem_cons_of_mem f hg)
    simp only [plan_upload, List.map_append, List.sum_append]
    rw [hrec, plan_file_sum _ tid f (h f (List.mem_cons_self f rest))]

/-- No planned item across all upload files exceeds the chunk size. -/
theorem plan_upload_le (tid : String) (fpath fpath_meta : String → String) :
    ∀ files : List FileEntry,
      ∀ it ∈ (plan_upload tid fpath fpath_meta files).1, it.size ≤ (UPLOAD_CHUNK_SIZE : Int)
  | [] => by simp [plan_upload]
  | f :: rest => by
    intro it hit
    simp only [plan_upload, List.mem_append] at hit
    rcases hit with hit | hit
    · exact plan_sizes_le f.chunks _ tid (file_upload_size f) 0 it.size
        (List.mem_map_of_mem UploadQueueItem.size hit)
    · exact plan_upload_le tid fpath fpath_meta rest it hit

/-- Every planned item across all upload files has positive size, under the
chunk-count hypothesis. -/
theorem plan_upload_pos (tid : String) (fpath fpath_meta : String → String) :
    ∀ files : List FileEntry, (∀ f ∈ files, chunks_match_size f) →
      ∀ it ∈ (plan_upload tid fpath fpath_meta files).1, 0 < it.size
  | [], _ => by simp [plan_upload]
  | f :: rest, h => by
    intro it hit
    simp only [plan_upload, List.mem_append] at hit
    rcases hit with hit | hit
    · obtain ⟨h0, h1, h2⟩ := chunks_match_size_bounds f (h f (List.mem_cons_self f rest))
      have := chunk_size_list_pos f.chunks.length (file_upload_size f) h0 h1 h2 it.size
      rw [← plan_map_size_eq f.chunks _ tid] at this
      exact this (List.mem_map_of_mem UploadQueueItem.size hit)
    · exact plan_upload_pos tid fpath fpath_meta rest
        (fun g hg => h g (List.mem_cons_of_mem f hg)) it hit

/-- C1: for a change set in which every file to be uploaded carries exactly
`ceil(file_size / UPLOAD_CHUNK_SIZE)` chunk identifiers ordered by chunk
index, the task-planning step of `push_project_async` produces upload queue
items whose sizes sum exactly to the job's `total_size`, with no item's size
exceeding `UPLOAD_CHUNK_SIZE`, and the last item of each file having size
`file_size mod UPLOAD_CHUNK_SIZE` (or a full `UPLOAD_CHUNK_SIZE` when
`file_size` is evenly divisible). -/
theorem plan_chunking_sums_to_total (tid : String) (fpath fpath_meta : String → String)
    (files : List FileEntry) (hch : ∀ f ∈ files, chunks_match_size f) :
    (((plan_upload tid fpath fpath_meta files).1.map UploadQueueItem.size).sum
        = (plan_upload tid fpath fpath_meta files).2)
    ∧ (∀ it ∈ (plan_upload tid fpath fpath_meta files).1, it.size ≤ (UPLOAD_CHUNK_SIZE : Int))
    ∧ (∀ f ∈ files, ∀ s,
        ((plan_chunks_from (file_upload_location fpath fpath_meta f) (file_upload_size f)
            tid 0 f.chunks).map UploadQueueItem.size).getLast? = some s →
          s = if file_upload_size f % (UPLOAD_CHUNK_SIZE : Int) = 0 then (UPLOAD_CHUNK_SIZE : Int)
              else file_upload_size f % (UPLOAD_CHUNK_SIZE : Int)) := by
  refine ⟨plan_upload_sum tid fpath fpath_meta files hch,
    plan_upload_le tid fpath fpath_meta files, ?_⟩
  intro f hf s hs
  obtain ⟨h0, h1, h2⟩ := chunks_match_size_bounds f (hch f hf)
  rw [plan_map_size_eq] at hs
  exact chunk_size_list_last f.chunks.length (file_upload_size f) h0 h1 h2 s hs

/-- A concrete change set for exercising the planner: one diff upload of 5
bytes (one chunk) and one plain file of exactly two full chunks. -/
def sample_upload_files : List FileEntry :=
  [{ path := "a.gpkg", size := 100, diff := some { path := "a-diff", size := 5 },
     upload_file := none, chunks := ["c1"], origin_checksum := none },
   { path := "b.txt", size := 20971520, diff := none,
     upload_file := none, chunks := ["c2", "c3"], origin_checksum := none }]

/-- Witness for C1: the chunk-count hypothesis holds of the sample change
set, and the planned sizes there sum to the accumulated total. -/
theorem plan_chunking_sums_to_total_witness :
    (∀ f ∈ sample_upload_files, chunks_match_size f)
    ∧ (((plan_upload "t1" (fun s => s) (fun s => s) sample_upload_files).1.map
          UploadQueueItem.size).sum
        = (plan_upload "t1" (fun s => s) (fun s => s) sample_upload_files).2) :=
  ⟨by decide,
   (plan_chunking_sums_to_total "t1" (fun s => s) (fun s => s) sample_upload_files (by decide)).1⟩

/-! ## Finalize lemmas -/

/-- When no future carries an exception, the finalize exception scan finds
none. -/
theorem first_future_exception_eq_none : ∀ fs : List FutureState,
    (∀ f ∈ fs, f.exception = none) → first_future_exception fs = none
  | [], _ => rfl
  | f :: rest, h => by
    have hf := h f (List.mem_cons_self f rest)
    simp only [first_future_exception, hf]
    exact first_future_exception_eq_none rest fun g hg => h g (List.mem_cons_of_mem f hg)

/-- An empty change set, shared by the concrete scenarios below. -/
def sample_changes_empty : Changes :=
  { added := [], updated := [], removed := [], renamed := [] }

/-- A finalize environment in which every external call succeeds. -/
def sample_finalize_env : FinalizeEnv :=
  { finish_resp := .ok { transaction := "t1", version := "v2", files := ["f"] }
    cancel_resp := .ok "200 OK"
    apply_result := .ok () }

/-- C2: finalize on a job whose workers all finished without exception but
whose `transferred_size` differs from `total_size` raises the size-mismatch
`ClientError` and issues no request at all — in particular no finish/commit
post — whether or not a transaction exists. -/
theorem finalize_size_mismatch_raises_before_finish (job : UploadJob) (env : FinalizeEnv)
    (hexc : ∀ f ∈ job.futures, f.exception = none)
    (hne : job.transferred_size ≠ job.total_size) :
    (push_project_finalize job env).result
        = .error ("Upload error: Transferred size (" ++ toString job.transferred_size
            ++ ") and expected total size (" ++ toString job.total_size ++ ") do not match!")
    ∧ (push_project_finalize job env).events = [] := by
  have hfe := first_future_exception_eq_none job.futures hexc
  simp [push_project_finalize, hfe, hne]

/-- A job with completed, exception-free futures whose transferred size (1)
does not match its total size (2). -/
def sample_mismatch_job : UploadJob :=
  { project_path := "owner/proj"
    changes := sample_changes_empty
    transaction_id := some "t1"
    total_size := 2
    transferred_size := 1
    upload_queue_items := []
    is_cancelled := false
    with_upload := true
    futures := [.completed none]
    server_resp := none }

/-- Witness for C2 at the concrete mismatching job. -/
theorem finalize_size_mismatch_raises_before_finish_witness :
    (∀ f ∈ sample_mismatch_job.futures, f.exception = none)
    ∧ sample_mismatch_job.transferred_size ≠ sample_mismatch_job.total_size
    ∧ (push_project_finalize sample_mismatch_job sample_finalize_env).result
        = .error ("Upload error: Transferred size (" ++ toString sample_mismatch_job.transferred_size
            ++ ") and expected total size (" ++ toString sample_mismatch_job.total_size
            ++ ") do not match!")
    ∧ (push_project_finalize sample_mismatch_job sample_finalize_env).events = [] :=
  ⟨by decide, by decide,
   (finalize_size_mismatch_raises_before_finish sample_mismatch_job sample_finalize_env
      (by decide) (by decide)).1,
   (finalize_size_mismatch_raises_before_finish sample_mismatch_job sample_finalize_env
      (by decide) (by decide)).2⟩

/-- C7: when the finish/commit post fails on a job with an upload, finalize
issues the finish request, then one best-effort cancel request (whatever the
cancel's own outcome — a failed compensation is logged only), and re-raises
precisely the original finish error. -/
theorem finalize_finish_failure_cancels_and_reraises (job : UploadJob) (env : FinalizeEnv)
    (err : String)
    (hexc : ∀ f ∈ job.futures, f.exception = none)
    (hup : job.with_upload = true)
    (hsz : job.transferred_size = job.total_size)
    (hfin : env.finish_resp = .error err) :
    (push_project_finalize job env).result = .error err
    ∧ (push_project_finalize job env).events
        = [.post (.finish (option_str job.transaction_id)),
           .post (.cancel (option_str job.transaction_id))] := by
  have hfe := first_future_exception_eq_none job.futures hexc
  simp [push_project_finalize, hfe, hup, hsz, hfin]

/-- A job ready to finalize (all futures clean, sizes matching). -/
def sample_finish_job : UploadJob :=
  { project_path := "owner/proj"
    changes := sample_changes_empty
    transaction_id := some "t1"
    total_size := 5
    transferred_size := 5
    upload_queue_items := []
    is_cancelled := false
    with_upload := true
    futures := [.completed none, .completed none]
    server_resp := none }

/-- A finalize environment in which the finish post fails and the
compensating cancel fails too. -/
def sample_finish_fail_env : FinalizeEnv :=
  { finish_resp := .error "finish rejected by server"
    cancel_resp := .error "cancel also failed"
    apply_result := .ok () }

/-- Witness for C7: even with the cancel post itself failing, the finish
error is the one raised, after exactly the finish-then-cancel posts. -/
theorem finalize_finish_failure_cancels_and_reraises_witness :
    (∀ f ∈ sample_finish_job.futures, f.exception = none)
    ∧ sample_finish_job.with_upload = true
    ∧ sample_finish_job.transferred_size = sample_finish_job.total_size
    ∧ sample_finish_fail_env.finish_resp = .error "finish rejected by server"
    ∧ (push_project_finalize sample_finish_job sample_finish_fail_env).result
        = .error "finish rejected by server"
    ∧ (push_project_finalize sample_finish_job sample_finish_fail_env).events
        = [.post (.finish "t1"), .post (.cancel "t1")] :=
  ⟨by decide, by decide, by decide, by decide,
   (finalize_finish_failure_cancels_and_reraises sample_finish_job sample_finish_fail_env
      "finish rejected by server" (by decide) (by decide) (by decide) (by decide)).1,
   by
    have h := (finalize_finish_failure_cancels_and_reraises sample_finish_job
      sample_finish_fail_env "finish rejected by server" (by decide) (by decide) (by decide)
      (by decide)).2
    simpa [sample_finish_job, option_str] using h⟩

/-- C8 (amended): the temporary-directory cleanup happens on exactly one
exit path — a finalize run that completes successfully; in particular
`push_project_cancel` never releases it. -/
theorem tmp_released_only_on_successful_finalize :
    (∀ (job : UploadJob) (env : FinalizeEnv),
      Event.tmp_cleanup ∈ (push_project_finalize job env).events
        ↔ (push_project_finalize job env).result = .ok ())
    ∧ (∀ (job : UploadJob) (cancel_resp : Except String String),
      Event.tmp_cleanup ∉ (push_project_cancel job cancel_resp).events) := by
  constructor
  · intro job env
    simp only [push_project_finalize, finalize_tail]
    repeat' split
    all_goals simp
  · intro job cancel_resp
    simp only [push_project_cancel]
    split <;> simp

/-- A job with an upload still in progress, as left by
`push_project_async`. -/
def sample_running_job : UploadJob :=
  { project_path := "owner/proj"
    changes := sample_changes_empty
    transaction_id := some "t1"
    total_size := 5
    transferred_size := 0
    upload_queue_items := []
    is_cancelled := false
    with_upload := true
    futures := [.running]
    server_resp := none }

/-- Counterexample to C8 as stated: a successful explicit cancel is an exit
path of a push whose temporary directory was created, yet no cleanup event
occurs on it. -/
theorem cancel_does_not_release_tmp_cex :
    (push_project_cancel sample_running_job (.ok "200 OK")).result = .ok ()
    ∧ (push_project_cancel sample_running_job (.ok "200 OK")).job.is_cancelled = true
    ∧ Event.tmp_cleanup ∉ (push_project_cancel sample_running_job (.ok "200 OK")).events := by
  decide

/-! ## Chunk upload verification (C3) -/

/-- C3: whenever the server acknowledgement of a chunk post disagrees with
the locally computed byte count or hash, the worker raises the
chunk-mismatch `ClientError` after issuing exactly one transaction-cancel
request, whatever the cancel post's own outcome (a `ClientError` from the
cancel is swallowed and the mismatch remains the error raised). -/
theorem upload_chunk_mismatch_cancels_once (item : UploadQueueItem)
    (sha1 : List Nat → String) (content : List Nat) (resp : ChunkResp)
    (cancel_resp : Except String String)
    (hmis : resp.size ≠ ((upload_chunk_data item content).length : Int)
            ∨ resp.checksum ≠ sha1 (upload_chunk_data item content)) :
    (upload_blocking item sha1 content (.ok resp) cancel_resp).1
        = .error ("Mismatch between uploaded file chunk " ++ item.chunk_id ++ " and local one")
    ∧ (upload_blocking item sha1 content (.ok resp) cancel_resp).2.count
          (Event.post (Request.cancel item.transaction_id)) = 1 := by
  have hcond : ¬(resp.size = ((upload_chunk_data item content).length : Int)
      ∧ resp.checksum = sha1 (upload_chunk_data item content)) := by tauto
  constructor
  · simp [upload_blocking, hcond]
  · simp only [upload_blocking, if_neg hcond]
    rw [List.count_cons, List.count_cons, List.count_nil]
    simp

/-- Witness for C3: a server acknowledgement reporting a wrong byte count
for a two-byte chunk, while the cancel post itself also fails. -/
theorem upload_chunk_mismatch_cancels_once_witness :
    (({ size := 99, checksum := "h" } : ChunkResp).size
        ≠ ((upload_chunk_data
            { file_path := "b.txt", size := 2, chunk_id := "c2", chunk_index := 0,
              transaction_id := "t1" } [7, 7]).length : Int)
      ∨ ({ size := 99, checksum := "h" } : ChunkResp).checksum
        ≠ (fun _ : List Nat => "h") (upload_chunk_data
            { file_path := "b.txt", size := 2, chunk_id := "c2", chunk_index := 0,
              transaction_id := "t1" } [7, 7]))
    ∧ (upload_blocking
        { file_path := "b.txt", size := 2, chunk_id := "c2", chunk_index := 0,
          transaction_id := "t1" } (fun _ => "h") [7, 7]
        (.ok { size := 99, checksum := "h" }) (.error "cancel failed")).1
        = .error "Mismatch between uploaded file chunk c2 and local one"
    ∧ (upload_blocking
        { file_path := "b.txt", size := 2, chunk_id := "c2", chunk_index := 0,
          transaction_id := "t1" } (fun _ => "h") [7, 7]
        (.ok { size := 99, checksum := "h" }) (.error "cancel failed")).2.count
          (Event.post (Request.cancel "t1")) = 1 :=
  ⟨by decide,
   (upload_chunk_mismatch_cancels_once
      { file_path := "b.txt", size := 2, chunk_id := "c2", chunk_index := 0,
        transaction_id := "t1" } (fun _ => "h") [7, 7]
      { size := 99, checksum := "h" } (.error "cancel failed") (by decide)).1,
   (upload_chunk_mismatch_cancels_once
      { file_path := "b.txt", size := 2, chunk_id := "c2", chunk_index := 0,
        transaction_id := "t1" } (fun _ => "h") [7, 7]
      { size := 99, checksum := "h" } (.error "cancel failed") (by decide)).2⟩

/-! ## Polling (C5, C6) -/

/-- When no completed future carries an exception, the polling loop returns
exactly whether some future is in the running state. -/
theorem is_running_loop_eq : ∀ fs : List FutureState,
    (∀ f ∈ fs, f.exception = none) →
    is_running_loop fs = .ok (fs.any FutureState.runningB)
  | [], _ => rfl
  | f :: rest, h => by
    have hf := h f (List.mem_cons_self f rest)
    have hrec := is_running_loop_eq rest fun g hg => h g (List.mem_cons_of_mem f hg)
    cases f with
    | pending => simpa [is_running_loop, FutureState.runningB] using hrec
    | running => simp [is_running_loop, FutureState.runningB]
    | completed e =>
      cases e with
      | none => simpa [is_running_loop, FutureState.runningB] using hrec
      | some e => simp [FutureState.exception] at hf

/-- C5 (amended): as long as no completed task carries an exception,
`push_project_is_running` (which never performs a blocking call — it only
inspects `done()`, `exception()` of done futures, and `running()`) returns
true precisely when some future is currently executing; queued-but-unstarted
futures do not count as running, so the poll can report false while tasks
are still in flight. -/
theorem is_running_reports_executing_only (job : UploadJob)
    (hexc : ∀ f ∈ job.futures, f.exception = none) :
    (push_project_is_running job).2 = .ok (job.futures.any FutureState.runningB) :=
  is_running_loop_eq job.futures hexc

/-- A job whose four submitted tasks include one currently executing. -/
def sample_poll_job : UploadJob :=
  { project_path := "owner/proj"
    changes := sample_changes_empty
    transaction_id := some "t1"
    total_size := 4
    transferred_size := 1
    upload_queue_items := []
    is_cancelled := false
    with_upload := true
    futures := [.completed none, .running, .pending, .pending]
    server_resp := none }

/-- Witness for C5 at the concrete polling job. -/
theorem is_running_reports_executing_only_witness :
    (∀ f ∈ sample_poll_job.futures, f.exception = none)
    ∧ (push_project_is_running sample_poll_job).2 = .ok true :=
  ⟨by decide, is_running_reports_executing_only sample_poll_job (by decide)⟩

/-- A job all of whose submitted tasks are still queued, none started. -/
def sample_pending_job : UploadJob :=
  { project_path := "owner/proj"
    changes := sample_changes_empty
    transaction_id := some "t1"
    total_size := 4
    transferred_size := 0
    upload_queue_items := []
    is_cancelled := false
    with_upload := true
    futures := [.pending, .pending]
    server_resp := none }

/-- Counterexample to C5 as stated: a job with only queued (non-terminal,
in-flight) tasks, on which `push_project_is_running` returns false. -/
theorem is_running_pending_future_cex :
    (push_project_is_running sample_pending_job).2 = .ok false
    ∧ sample_pending_job.futures = [FutureState.pending, FutureState.pending]
    ∧ FutureState.pending.isTerminal = false := by
  decide

/-- A job whose first future completed with an error. -/
def sample_failed_job : UploadJob :=
  { project_path := "owner/proj"
    changes := sample_changes_empty
    transaction_id := some "t1"
    total_size := 4
    transferred_size := 0
    upload_queue_items := []
    is_cancelled := false
    with_upload := true
    futures := [.completed (some "network error"), .pending]
    server_resp := none }

/-- Counterexample to C6 as stated: two consecutive polls of the same job
both raise the same worker error — the error is not raised at most once —
even though (as the claim also says) the job itself is never mutated. -/
theorem is_running_repeated_raise_cex :
    count_raises (repeated_is_running sample_failed_job 2) = 2
    ∧ (push_project_is_running sample_failed_job).1 = sample_failed_job := by
  decide

/-- C6 (amended): repeated polling never mutates the job (the source
assigns no job attribute), and once the scan hits a completed-with-error
future, every call of the sequence raises that same error — on every call,
not at most once. -/
theorem is_running_no_mutation_raises_every_call (job : UploadJob) (n : Nat) (e : String)
    (h : is_running_loop job.futures = .error e) :
    (push_project_is_running job).1 = job
    ∧ ∀ r ∈ repeated_is_running job n, r = .error e := by
  refine ⟨rfl, ?_⟩
  intro r hr
  obtain ⟨i, _hi, rfl⟩ := List.mem_map.mp hr
  exact h

/-- Witness for C6 at the concrete failed job over three polls. -/
theorem is_running_no_mutation_raises_every_call_witness :
    is_running_loop sample_failed_job.futures = .error "network error"
    ∧ (push_project_is_running sample_failed_job).1 = sample_failed_job
    ∧ ∀ r ∈ repeated_is_running sample_failed_job 3, r = .error "network error" :=
  ⟨by decide,
   (is_running_no_mutation_raises_every_call sample_failed_job 3 "network error" (by decide)).1,
   (is_running_no_mutation_raises_every_call sample_failed_job 3 "network error" (by decide)).2⟩

/-! ## Empty change set (C4) -/

/-- C4 (amended): for a change set with all four collections — added,
updated, removed and renamed — empty, `push_project_async` (with all
preconditions passing) returns a null job, opens no transaction and
triggers no chunk upload or finalize: the only event is the creation of the
temporary directory. -/
theorem push_async_empty_changes_null_job (env : AsyncEnv)
    (is_versioned_file : String → Bool) (fpath fpath_meta tmp_copy_path : String → String)
    (pi : ProjectInfo)
    (hpull : env.has_unfinished_pull = false)
    (hpi : env.project_info = .ok pi)
    (hacc : env.username ∈ pi.writersnames)
    (hver : env.metadata_version
        = (match pi.version with
           | some v => if v = "" then "v0" else v
           | none => "v0"))
    (hsto : env.enough_free_space = true)
    (hempty : env.changes = { added := [], updated := [], removed := [], renamed := [] }) :
    push_project_async env is_versioned_file fpath fpath_meta tmp_copy_path
      = (.ok none, [.tmp_dir_created]) := by
  simp [push_project_async, hpull, hpi, hacc, hver, hsto, hempty,
    snapshot_updated, snapshot_added, Changes.total_len]

/-- An environment with every precondition passing and an entirely empty
change set. -/
def sample_empty_env : AsyncEnv :=
  { has_unfinished_pull := false
    metadata_name := "owner/proj"
    metadata_version := "v1"
    project_info := .ok { version := some "v1", writersnames := ["owner"] }
    username := "owner"
    enough_free_space := true
    freespace := 0
    push_resp := .ok { transaction := "t1", version := "v2", files := [] }
    changes := { added := [], updated := [], removed := [], renamed := [] }
    fin := sample_finalize_env }

/-- Witness for C4 (amended) at the concrete empty-change-set
environment. -/
theorem push_async_empty_changes_null_job_witness :
    sample_empty_env.has_unfinished_pull = false
    ∧ sample_empty_env.project_info
        = .ok { version := some "v1", writersnames := ["owner"] }
    ∧ sample_empty_env.username ∈ (["owner"] : List String)
    ∧ sample_empty_env.enough_free_space = true
    ∧ sample_empty_env.changes
        = { added := [], updated := [], removed := [], renamed := [] }
    ∧ push_project_async sample_empty_env (fun _ => false)
        (fun s => s) (fun s => s) (fun s => s)
      = (.ok none, [.tmp_dir_created]) :=
  ⟨rfl, rfl, by decide, rfl, rfl,
   push_async_empty_changes_null_job sample_empty_env (fun _ => false)
     (fun s => s) (fun s => s) (fun s => s)
     { version := some "v1", writersnames := ["owner"] }
     rfl rfl (by decide) rfl rfl rfl⟩

/-- The same environment except that the change set has one renamed entry
and no added, updated or removed files. -/
def sample_renamed_env : AsyncEnv :=
  { sample_empty_env with
    changes :=
      { added := [], updated := [], removed := []
        renamed := [{ path := "x.txt", size := 10, diff := none, upload_file := none,
                      chunks := [], origin_checksum := none }] } }

/-- Counterexample to C4 as stated: a change set with no added, no updated
and no removed files (only a renamed one) makes `push_project_async` post
the transaction-open request — a transaction is opened (and an inline
finalize runs), contrary to the claim. -/
theorem push_async_renamed_only_opens_transaction_cex :
    sample_renamed_env.changes.added = []
    ∧ sample_renamed_env.changes.updated = []
    ∧ sample_renamed_env.changes.removed = []
    ∧ Event.post (Request.project_push "owner/proj" "v1" sample_renamed_env.changes)
        ∈ (push_project_async sample_renamed_env (fun _ => false)
            (fun s => s) (fun s => s) (fun s => s)).2 := by
  decide

/-! ## Lost increment (C9) -/

/-- C9: the counter update `job.transferred_size += item.size` is a
non-atomic attribute read followed by an attribute store. With two workers
of item sizes 1 and 1, the interleaving read₀, read₁, write₀, write₁ runs
both increments to completion yet leaves the counter at 1, losing an
increment, while any serialized order yields the exact sum 2. -/
theorem transferred_size_increment_can_be_lost :
    (run_schedule [1, 1] [0, 1, 0, 1]).1 = 1
    ∧ (run_schedule [1, 1] [0, 1, 0, 1]).2 = [IncPhase.finished, IncPhase.finished]
    ∧ (run_schedule [1, 1] [0, 0, 1, 1]).1 = 2
    ∧ ([1, 1] : List Int).sum = 2 := by
  decide

/-! ## Transferred-size accounting (C10) -/

/-- What one task adds to the counter over a whole sequential run: its size
when it was neither skipped by cancellation nor failed, nothing
otherwise. -/
def task_contribution (t : Bool × Int × UploadOutcome) : Int :=
  if t.1 = false ∧ t.2.2 = UploadOutcome.success then t.2.1 else 0

/-- A sequential run accumulates exactly the per-task contributions on top
of the starting counter. -/
theorem run_uploads_acc : ∀ (tasks : List (Bool × Int × UploadOutcome)) (t : Int),
    run_uploads tasks t = t + (tasks.map task_contribution).sum
  | [], t => by simp [run_uploads]
  | (c, s, o) :: rest, t => by
    simp only [run_uploads, List.map_cons, List.sum_cons]
    rw [run_uploads_acc rest]
    cases c <;> cases o
    all_goals simp [do_upload_step, task_contribution]
    all_goals ring

/-- Contributions are bounded by sizes, with equality exactly when every
task ran uncancelled and succeeded (sizes being positive). -/
theorem contrib_le_sum : ∀ tasks : List (Bool × Int × UploadOutcome),
    (∀ t ∈ tasks, (0 : Int) < t.2.1) →
    ((tasks.map task_contribution).sum ≤ (tasks.map fun t => t.2.1).sum
    ∧ ((tasks.map task_contribution).sum = (tasks.map fun t => t.2.1).sum
        ↔ ∀ t ∈ tasks, t.1 = false ∧ t.2.2 = UploadOutcome.success))
  | [], _ => by simp
  | x :: rest, h => by
    obtain ⟨ihle, ihiff⟩ := contrib_le_sum rest fun t ht => h t (List.mem_cons_of_mem x ht)
    have hx := h x (List.mem_cons_self x rest)
    simp only [List.map_cons, List.sum_cons, List.mem_cons]
    by_cases hc : x.1 = false ∧ x.2.2 = UploadOutcome.success
    · rw [task_contribution, if_pos hc]
      constructor
      · omega
      · constructor
        · intro heq t ht
          rcases ht with rfl | ht
          · exact hc
          · exact ihiff.mp (by omega) t ht
        · intro hall
          have := ihiff.mpr fun t ht => hall t (Or.inr ht)
          omega
    · have hcz : task_contribution x = 0 := by rw [task_contribution, if_neg hc]
      rw [hcz]
      constructor
      · omega
      · constructor
        · intro heq
          exfalso
          omega
        · intro hall
          exact absurd (hall x (Or.inl rfl)) hc

/-- C10: a job starts with `transferred_size = 0`; in a sequential
execution the counter accumulates exactly the sizes of the tasks that ran
uncancelled and succeeded (each at most once, skipped or failed tasks
contributing nothing), so it never exceeds the sum of all task sizes — the
job's `total_size` for planner-built jobs — with equality exactly when
every task ran uncancelled and succeeded. -/
theorem transferred_size_bounded_by_total (p : String) (ch : Changes)
    (tid : Option String) (tasks : List (Bool × Int × UploadOutcome))
    (hpos : ∀ t ∈ tasks, (0 : Int) < t.2.1) :
    (UploadJob.init p ch tid).transferred_size = 0
    ∧ run_uploads tasks 0 = (tasks.map task_contribution).sum
    ∧ run_uploads tasks 0 ≤ (tasks.map fun t => t.2.1).sum
    ∧ (run_uploads tasks 0 = (tasks.map fun t => t.2.1).sum
        ↔ ∀ t ∈ tasks, t.1 = false ∧ t.2.2 = UploadOutcome.success) := by
  have hacc := run_uploads_acc tasks 0
  rw [zero_add] at hacc
  obtain ⟨hle, hiff⟩ := contrib_le_sum tasks hpos
  exact ⟨rfl, hacc, by omega, by rw [hacc]; exact hiff⟩

/-- Witness for C10: one successful task, one skipped by cancellation, one
failed; the counter ends at 3, strictly below the total 9. -/
theorem transferred_size_bounded_by_total_witness :
    (∀ t ∈ [((false, 3, .success) : Bool × Int × UploadOutcome),
            (true, 2, .success), (false, 4, .failure "boom")], (0 : Int) < t.2.1)
    ∧ run_uploads [((false, 3, .success) : Bool × Int × UploadOutcome),
        (true, 2, .success), (false, 4, .failure "boom")] 0
      ≤ ([((false, 3, .success) : Bool × Int × UploadOutcome),
          (true, 2, .success), (false, 4, .failure "boom")].map fun t => t.2.1).sum :=
  ⟨by decide,
   (transferred_size_bounded_by_total "owner/proj" sample_changes_empty (some "t1")
      [(false, 3, .success), (true, 2, .success), (false, 4, .failure "boom")]
      (by decide)).2.2.1⟩

end Mergin
